import Mathlib

/-!
Shallow embedding of `src/tariff_calculator.py` (a Streamlit dashboard that
compares end-of-day prices of a fixed list of indices and ETFs between a fixed
start date and the latest available quote, via the Marketstack REST API).

Modelling conventions:
* Calendar days are modelled as integers (ISO date strings `YYYY-MM-DD` are in
  bijection with days, and `target_date - timedelta(days=i)` is `target - i`).
  A quote's `data.get("date","")[:10]` field is modelled as `Option ℤ`: `none`
  for a missing or malformed date (the empty string never equals a valid ISO
  day), `some d` for a well-formed day.
* Prices (Python floats) are modelled as rationals `ℚ`.  All formatting claims
  are evaluated at values exact in hundredths, where every rounding mode of
  `:.2f` agrees with rounding on `ℚ`.
* The upstream HTTP layer is an oracle: `HttpResult` is either a raised
  exception at `requests.get` (network failure) or a response with a status
  code and a parsed body; `none` as the body models a `.json()` failure.
  A body entry `none` models a null/falsy record in the `data` array.
* Python truthiness of a price (`if ... start_data.get('close')`) is `close`
  being non-null and nonzero; truthiness of a dict returned by the fetchers is
  `Option`-presence (the fetchers only ever return non-empty record dicts).
-/

/-- An end-of-day record as used by the code: `date` (first 10 characters,
parsed to a day) and `close`. -/
structure Quote where
  dateDay : Option ℤ
  close : Option ℚ
  deriving Repr, DecidableEq

/-- Result of one `requests.get` call: either the call itself raised
(`requests.exceptions.RequestException`, e.g. network failure), or an HTTP
response with a status code and a body; body `none` models a `.json()` parse
failure, body `some data` the parsed `data` array (entries `none` are
null/falsy records). -/
inductive HttpResult where
  | exn
  | resp (status : ℕ) (body : Option (List (Option Quote)))
  deriving Repr, DecidableEq

/-- The two exception classes caught by the code: a
`requests.exceptions.RequestException` (network failure or `raise_for_status`
on a 4xx/5xx status), or any other exception during processing (e.g. a
malformed response body). -/
inductive PyErr where
  | requestError
  | processingError
  deriving Repr, DecidableEq

/-- The body of the `try` block of one attempt of
`get_closest_trading_day_data`, for day `d`: `raise_for_status`, then take the
first record of a non-empty `data` array, require a non-null `close`, and
return it only when its reported day equals the day queried on this attempt.
`Except.error` is a raised exception; `.ok none` means the attempt found no
matching record and the loop continues. -/
def attemptRaw (r : HttpResult) (d : ℤ) : Except PyErr (Option Quote) :=
  match r with
  | .exn => .error .requestError
  | .resp status body =>
    if 400 ≤ status then .error .requestError
    else
      match body with
      | none => .error .processingError
      | some [] => .ok none
      | some (none :: _) => .ok none
      | some (some q :: _) =>
        match q.close with
        | none => .ok none
        | some _ => if q.dateDay = some d then .ok (some q) else .ok none

/-- Outcome of one attempt after the `except` handlers: `fail` (an exception
was caught, the function returns `None` immediately), `found` (a matching
quote was returned), or `notFound` (fall through to the next day). -/
inductive AttemptOutcome where
  | fail
  | notFound
  | found (q : Quote)
  deriving Repr, DecidableEq

/-- One attempt of `get_closest_trading_day_data` with its `except` handlers
applied: exceptions are caught and turn into `fail`. -/
def attempt (r : HttpResult) (d : ℤ) : AttemptOutcome :=
  match attemptRaw r d with
  | .error _ => .fail
  | .ok none => .notFound
  | .ok (some q) => .found q

/-- The `for i in range(5)` loop of `get_closest_trading_day_data`: on each
iteration query day `target - i`; a caught exception returns `None`
immediately, a matching quote is returned, otherwise move to the next day;
an exhausted loop returns `None`. -/
def closestGo (oracle : ℤ → HttpResult) (target : ℤ) : List ℕ → Option Quote
  | [] => none
  | i :: rest =>
    match attempt (oracle (target - (i : ℤ))) (target - (i : ℤ)) with
    | .fail => none
    | .found q => some q
    | .notFound => closestGo oracle target rest

/-- The days actually queried by the loop of `get_closest_trading_day_data`
(one HTTP request per day, stopping at the first attempt that returns or
fails). -/
def closestTrace (oracle : ℤ → HttpResult) (target : ℤ) : List ℕ → List ℤ
  | [] => []
  | i :: rest =>
    match attempt (oracle (target - (i : ℤ))) (target - (i : ℤ)) with
    | .fail => [target - (i : ℤ)]
    | .found _ => [target - (i : ℤ)]
    | .notFound => (target - (i : ℤ)) :: closestTrace oracle target rest

/-- `get_closest_trading_day_data(symbol, target_date_str)`: walk back from
`target` over `range(5)` days.  The oracle is the upstream API's response for
the `eod` query with `date_from = date_to = d, limit = 1`. -/
def get_closest_trading_day_data (oracle : ℤ → HttpResult) (target : ℤ) :
    Option Quote :=
  closestGo oracle target (List.range 5)

/-- An HTTP request issued by `get_latest_trading_day_data`, with the
`limit` parameter of its `params` dict. -/
structure ApiCall where
  endpoint : String
  limit : ℕ
  deriving Repr, DecidableEq

/-- The calls issued by `get_latest_trading_day_data`: one call to
`eod/latest`, plus one fallback call to `eod` exactly when the first response
has status 404.  Both carry `limit = 1` from the shared `params` dict. -/
def latestCalls (latestResp : HttpResult) : List ApiCall :=
  match latestResp with
  | .exn => [⟨"eod/latest", 1⟩]
  | .resp status _ =>
    if status = 404 then [⟨"eod/latest", 1⟩, ⟨"eod", 1⟩]
    else [⟨"eod/latest", 1⟩]

/-- The `try` block of `get_latest_trading_day_data`: query `eod/latest`; if
its status is 404, replace the response with one fallback query to `eod`;
then `raise_for_status`, parse, and return the first record if its `close` is
non-null (no date check here). -/
def latestRaw (latestResp eodResp : HttpResult) : Except PyErr (Option Quote) :=
  match latestResp with
  | .exn => .error .requestError
  | .resp status body =>
    match (if status = 404 then eodResp else .resp status body) with
    | .exn => .error .requestError
    | .resp s b =>
      if 400 ≤ s then .error .requestError
      else
        match b with
        | none => .error .processingError
        | some [] => .ok none
        | some (none :: _) => .ok none
        | some (some q :: _) =>
          match q.close with
          | none => .ok none
          | some _ => .ok (some q)

/-- `get_latest_trading_day_data(symbol)` with its `except` handlers applied:
any caught exception resolves to `None`. -/
def get_latest_trading_day_data (latestResp eodResp : HttpResult) :
    Option Quote :=
  match latestRaw latestResp eodResp with
  | .error _ => none
  | .ok v => v

/-- The fixed reference date `START_DATE_STR = "2024-03-12"`. -/
def START_DATE_STR : String := "2024-03-12"

/-- Two-digit decimal field of Python fixed-point formatting. -/
def twoDigits (r : ℕ) : String := if r < 10 then "0" ++ toString r else toString r

/-- Python `f"{x:.2f}"` on a rational: two decimal places, a minus sign for
negatives and no sign for non-negatives.  Ties of the binary-float
round-half-even are immaterial here: every formatted value in this
development is exact in hundredths, where all rounding modes agree. -/
def formatFixed2 (x : ℚ) : String :=
  let n : ℤ := round (100 * x)
  let a := n.natAbs
  let core := toString (a / 100) ++ "." ++ twoDigits (a % 100)
  if n < 0 then "-" ++ core else core

/-- Python `f"{x:+.2f}"` on a rational: like `formatFixed2` but with an
explicit `+` sign on non-negatives. -/
def formatSignedFixed2 (x : ℚ) : String :=
  let n : ℤ := round (100 * x)
  let a := n.natAbs
  let core := toString (a / 100) ++ "." ++ twoDigits (a % 100)
  (if n < 0 then "-" else "+") ++ core

/-- `percentage_change = ((latest_price - start_price) / start_price) * 100`. -/
def percentage_change (start latest : ℚ) : ℚ := ((latest - start) / start) * 100

/-- `absolute_change = latest_price - start_price`. -/
def absolute_change (start latest : ℚ) : ℚ := latest - start

/-- The delta string shown for an index: `f"{percentage_change:.2f}%"`
(line 161) — the same format the detail table applies (line 225). -/
def indexDeltaString (start latest : ℚ) : String :=
  formatFixed2 (percentage_change start latest) ++ "%"

/-- The delta string shown for an ETF: `f"{absolute_change:+.2f} {currency}"`
(line 197) — the same format the detail table applies (line 234). -/
def etfDeltaString (start latest : ℚ) (currency : String) : String :=
  formatSignedFixed2 (absolute_change start latest) ++ " " ++ currency

/-- A row of `index_results_list`: either the full success dict
`{Index, Symbool, Start Datum, Start Prijs, Laatste Datum, Laatste Prijs,
Verandering (%)}` or the failure dict `{Index, Symbool, Verandering (%):
"Fout"}`. -/
inductive IndexResult where
  | success (name symbol : String) (startDate : Option ℤ) (startPrice : ℚ)
      (latestDate : Option ℤ) (latestPrice : ℚ) (change : ℚ)
  | failure (name symbol : String)
  deriving Repr, DecidableEq

/-- A row of `etf_results_list`: either the full success dict
`{ETF, Symbool, Valuta, Start Datum, Start Prijs, Laatste Datum, Laatste
Prijs, Verandering Absoluut}` or the failure dict `{ETF, Symbool, Verandering
Absoluut: "Fout"}` (which carries no currency). -/
inductive EtfResult where
  | success (name symbol currency : String) (startDate : Option ℤ)
      (startPrice : ℚ) (latestDate : Option ℤ) (latestPrice : ℚ) (change : ℚ)
  | failure (name symbol : String)
  deriving Repr, DecidableEq

/-- The per-index body of the loop: the guard
`if start_data and latest_data and start_data.get('close') and
latest_data.get('close')` — both fetches returned a dict AND both closes are
truthy (non-null and nonzero) — selects the success branch; every other case
appends the failure row. -/
def compareIndex (name symbol : String) (startData latestData : Option Quote) :
    IndexResult :=
  match startData, latestData with
  | some sq, some lq =>
    match sq.close, lq.close with
    | some sp, some lp =>
      if sp = 0 ∨ lp = 0 then .failure name symbol
      else .success name symbol sq.dateDay sp lq.dateDay lp
        (percentage_change sp lp)
    | _, _ => .failure name symbol
  | _, _ => .failure name symbol

/-- The per-ETF body of the loop: same truthiness guard, absolute change. -/
def compareEtf (name symbol currency : String)
    (startData latestData : Option Quote) : EtfResult :=
  match startData, latestData with
  | some sq, some lq =>
    match sq.close, lq.close with
    | some sp, some lp =>
      if sp = 0 ∨ lp = 0 then .failure name symbol
      else .success name symbol currency sq.dateDay sp lq.dateDay lp
        (absolute_change sp lp)
    | _, _ => .failure name symbol
  | _, _ => .failure name symbol

/-- Whether a row is the failure dict. -/
def IndexResult.isFailure : IndexResult → Bool
  | .success _ _ _ _ _ _ _ => false
  | .failure _ _ => true

/-- Whether a row is the failure dict. -/
def EtfResult.isFailure : EtfResult → Bool
  | .success _ _ _ _ _ _ _ _ => false
  | .failure _ _ => true

/-- The start price stored in a success row, `none` for a failure row. -/
def IndexResult.startPrice : IndexResult → Option ℚ
  | .success _ _ _ sp _ _ _ => some sp
  | .failure _ _ => none

/-- The `Verandering (%)` cell of the detail table (line 225): numeric
changes are formatted `f"{x:.2f}%"`, the failure marker string `"Fout"` is
kept as-is. -/
def renderIndexCell : IndexResult → String
  | .success _ _ _ _ _ _ ch => formatFixed2 ch ++ "%"
  | .failure _ _ => "Fout"

/-- The `Verandering Absoluut` cell of the detail table (line 234): numeric
changes are formatted `f"{x:+.2f} {currency}"`, the failure marker string
`"Fout"` is kept as-is. -/
def renderEtfCell : EtfResult → String
  | .success _ _ cur _ _ _ _ ch => formatSignedFixed2 ch ++ " " ++ cur
  | .failure _ _ => "Fout"

/-- A call to one of the two cached fetch helpers, as issued by the main
loops (the walk-back fetch always receives `START_DATE_STR`). -/
inductive FetchCall where
  | closest (symbol : String) (targetDate : String)
  | latest (symbol : String)
  deriving Repr, DecidableEq

/-- The index loop (lines 147-176): for each `(name, symbol)` in input order,
fetch start and latest data and append exactly one row — success or failure.
Returns the rows together with the fetch calls issued.  `fs` and `fl` are the
results of the two (cached) fetch helpers per symbol. -/
def processIndices (fs fl : String → Option Quote) :
    List (String × String) → List IndexResult × List FetchCall
  | [] => ([], [])
  | (name, symbol) :: rest =>
    let startData := fs symbol
    let latestData := fl symbol
    let (rows, calls) := processIndices fs fl rest
    (compareIndex name symbol startData latestData :: rows,
      .closest symbol START_DATE_STR :: .latest symbol :: calls)

/-- The ETF loop (lines 183-213): same shape, with a currency per ETF. -/
def processEtfs (fs fl : String → Option Quote) :
    List (String × String × String) → List EtfResult × List FetchCall
  | [] => ([], [])
  | (name, symbol, currency) :: rest =>
    let startData := fs symbol
    let latestData := fl symbol
    let (rows, calls) := processEtfs fs fl rest
    (compareEtf name symbol currency startData latestData :: rows,
      .closest symbol START_DATE_STR :: .latest symbol :: calls)

/-- Python truthiness of `API_KEY = os.getenv(...)`: `None` and the empty
string are falsy. -/
def pyTruthyKey : Option String → Bool
  | none => false
  | some s => !(s == "")

/-- Outcome of a run of the script: `st.stop()` before any fetch, or the two
rendered result tables. -/
inductive AppOutcome where
  | halted
  | rendered (indexRows : List IndexResult) (etfRows : List EtfResult)
  deriving Repr

/-- The top level of the script: `if not API_KEY: st.error(...); st.stop()`
runs before the instrument loops; otherwise both loops run to completion.
The second component is the list of fetch calls issued. -/
def runApp (apiKey : Option String) (fs fl : String → Option Quote)
    (idxList : List (String × String))
    (etfList : List (String × String × String)) :
    AppOutcome × List FetchCall :=
  if pyTruthyKey apiKey then
    let (irows, icalls) := processIndices fs fl idxList
    let (erows, ecalls) := processEtfs fs fl etfList
    (.rendered irows erows, icalls ++ ecalls)
  else (.halted, [])

/-- Modelled from the spec: the `@st.cache_data(ttl=3600)` framework cache is
not part of this repository's source; the spec describes it as a mapping from
request key to (value, insertion time), checked against a TTL on read, with a
clear operation.  Times are in seconds. -/
structure Cache (K V : Type) where
  entries : List (K × V × ℕ)

/-- Modelled from the spec: a cache read — the stored value for `k`, provided
its entry is younger than `ttl` at time `now`. -/
def Cache.lookup {K V : Type} [DecidableEq K] (c : Cache K V) (ttl now : ℕ)
    (k : K) : Option V :=
  match c.entries.find? (fun e => decide (e.1 = k) && decide (now < e.2.2 + ttl)) with
  | some e => some e.2.1
  | none => none

/-- Modelled from the spec: `st.cache_data.clear()` empties the cache. -/
def Cache.clear {K V : Type} : Cache K V → Cache K V := fun _ => ⟨[]⟩

/-- Modelled from the spec: a call to a cached fetch helper at time `now` —
on a hit return the cached value with no upstream fetch; on a miss perform
one upstream fetch and store its result.  The third component counts the
upstream fetches performed by this call. -/
def cachedFetch {K V : Type} [DecidableEq K] (fetch : K → V) (c : Cache K V)
    (ttl now : ℕ) (k : K) : V × Cache K V × ℕ :=
  match c.lookup ttl now k with
  | some v => (v, c, 0)
  | none => (fetch k, ⟨(k, fetch k, now) :: c.entries⟩, 1)

/-! ### Helper lemmas about the walk-back loop -/

lemma attempt_found (r : HttpResult) (d : ℤ) (q : Quote)
    (h : attempt r d = .found q) : q.dateDay = some d ∧ q.close ≠ none := by
  unfold attempt attemptRaw at h
  cases r with
  | exn => simp at h
  | resp status body =>
    by_cases hs : 400 ≤ status
    · simp [hs] at h
    · simp only [hs, if_false] at h
      match body with
      | none => simp at h
      | some [] => simp at h
      | some (none :: _) => simp at h
      | some (some q' :: _) =>
        cases hc : q'.close with
        | none => simp [hc] at h
        | some c =>
          simp only [hc] at h
          by_cases hd : q'.dateDay = some d
          · simp only [hd, if_pos rfl] at h
            cases h
            exact ⟨hd, by simp [hc]⟩
          · simp [hd] at h

lemma closestGo_some (oracle : ℤ → HttpResult) (target : ℤ) :
    ∀ (l : List ℕ) (q : Quote), closestGo oracle target l = some q →
      ∃ i ∈ l, attempt (oracle (target - (i : ℤ))) (target - (i : ℤ)) = .found q
  | [], q => by simp [closestGo]
  | a :: tl, q => by
    intro h
    unfold closestGo at h
    cases ha : attempt (oracle (target - (a : ℤ))) (target - (a : ℤ)) with
    | fail => simp [ha] at h
    | found q' =>
      simp only [ha, Option.some.injEq] at h
      exact ⟨a, List.mem_cons_self a tl, h ▸ ha⟩
    | notFound =>
      simp only [ha] at h
      obtain ⟨i, hi, hatt⟩ := closestGo_some oracle target tl q h
      exact ⟨i, List.mem_cons_of_mem a hi, hatt⟩

lemma closestGo_none (oracle : ℤ → HttpResult) (target : ℤ) :
    ∀ l : List ℕ,
      (∀ i ∈ l, ∀ q, attempt (oracle (target - (i : ℤ))) (target - (i : ℤ)) ≠ .found q) →
      closestGo oracle target l = none
  | [], _ => rfl
  | a :: tl, h => by
    unfold closestGo
    cases ha : attempt (oracle (target - (a : ℤ))) (target - (a : ℤ)) with
    | fail => rfl
    | found q => exact absurd ha (h a (List.mem_cons_self a tl) q)
    | notFound =>
      exact closestGo_none oracle target tl fun i hi => h i (List.mem_cons_of_mem a hi)

lemma closestGo_fail (oracle : ℤ → HttpResult) (target : ℤ) :
    ∀ (l : List ℕ) (j : ℕ) (hj : j < l.length),
      (∀ i (hi : i < j),
        attempt (oracle (target - (l.get ⟨i, hi.trans hj⟩ : ℤ)))
          (target - (l.get ⟨i, hi.trans hj⟩ : ℤ)) = .notFound) →
      attempt (oracle (target - (l.get ⟨j, hj⟩ : ℤ)))
        (target - (l.get ⟨j, hj⟩ : ℤ)) = .fail →
      closestGo oracle target l = none
  | [], j, hj => absurd hj (by simp)
  | a :: tl, 0, hj => by
    intro _ hfail
    simp only [List.get] at hfail
    unfold closestGo
    simp [hfail]
  | a :: tl, j + 1, hj => by
    intro hnf hfail
    have h0 : attempt (oracle (target - (a : ℤ))) (target - (a : ℤ)) = .notFound :=
      hnf 0 (Nat.succ_pos j)
    unfold closestGo
    simp only [h0]
    exact closestGo_fail oracle target tl j (Nat.lt_of_succ_lt_succ hj)
      (fun i hi => hnf (i + 1) (Nat.succ_lt_succ hi)) hfail

lemma closestTrace_take (oracle : ℤ → HttpResult) (target : ℤ) :
    ∀ l : List ℕ, ∃ k ≤ l.length,
      closestTrace oracle target l = (l.take k).map (fun i : ℕ => target - (i : ℤ))
  | [] => ⟨0, le_refl 0, rfl⟩
  | a :: tl => by
    cases h : attempt (oracle (target - (a : ℤ))) (target - (a : ℤ)) with
    | fail =>
      exact ⟨1, by simp, by unfold closestTrace; simp [h]⟩
    | found q =>
      exact ⟨1, by simp, by unfold closestTrace; simp [h]⟩
    | notFound =>
      obtain ⟨k, hk, htr⟩ := closestTrace_take oracle target tl
      exact ⟨k + 1, by simpa using hk, by unfold closestTrace; simp [h, htr]⟩

lemma sub_natCast_injective (target : ℤ) :
    Function.Injective (fun i : ℕ => target - (i : ℤ)) := by
  intro a b h
  simp only at h
  omega

/-! ### Helper lemmas about the comparison branches -/

lemma compareIndex_success_of (name symbol : String) (sq lq : Quote)
    (sp lp : ℚ) (hsc : sq.close = some sp) (hlc : lq.close = some lp)
    (hsp : sp ≠ 0) (hlp : lp ≠ 0) :
    compareIndex name symbol (some sq) (some lq)
      = .success name symbol sq.dateDay sp lq.dateDay lp (percentage_change sp lp) := by
  simp [compareIndex, hsc, hlc, hsp, hlp]

lemma compareEtf_success_of (name symbol currency : String) (sq lq : Quote)
    (sp lp : ℚ) (hsc : sq.close = some sp) (hlc : lq.close = some lp)
    (hsp : sp ≠ 0) (hlp : lp ≠ 0) :
    compareEtf name symbol currency (some sq) (some lq)
      = .success name symbol currency sq.dateDay sp lq.dateDay lp
          (absolute_change sp lp) := by
  simp [compareEtf, hsc, hlc, hsp, hlp]

lemma compareIndex_cases (name symbol : String) (sd ld : Option Quote) :
    compareIndex name symbol sd ld = .failure name symbol ∨
    ∃ sq lq sp lp, sd = some sq ∧ ld = some lq ∧ sq.close = some sp ∧
      lq.close = some lp ∧ sp ≠ 0 ∧ lp ≠ 0 ∧
      compareIndex name symbol sd ld
        = .success name symbol sq.dateDay sp lq.dateDay lp (percentage_change sp lp) := by
  cases sd with
  | none => left; simp [compareIndex]
  | some sq =>
    cases ld with
    | none => left; simp [compareIndex]
    | some lq =>
      cases hsc : sq.close with
      | none => left; simp [compareIndex, hsc]
      | some sp =>
        cases hlc : lq.close with
        | none => left; simp [compareIndex, hsc, hlc]
        | some lp =>
          by_cases hz : sp = 0 ∨ lp = 0
          · left; simp [compareIndex, hsc, hlc, hz]
          · right
            rw [not_or] at hz
            exact ⟨sq, lq, sp, lp, rfl, rfl, hsc, hlc, hz.1, hz.2,
              compareIndex_success_of name symbol sq lq sp lp hsc hlc hz.1 hz.2⟩

lemma compareEtf_cases (name symbol currency : String) (sd ld : Option Quote) :
    compareEtf name symbol currency sd ld = .failure name symbol ∨
    ∃ sq lq sp lp, sd = some sq ∧ ld = some lq ∧ sq.close = some sp ∧
      lq.close = some lp ∧ sp ≠ 0 ∧ lp ≠ 0 ∧
      compareEtf name symbol currency sd ld
        = .success name symbol currency sq.dateDay sp lq.dateDay lp
            (absolute_change sp lp) := by
  cases sd with
  | none => left; simp [compareEtf]
  | some sq =>
    cases ld with
    | none => left; simp [compareEtf]
    | some lq =>
      cases hsc : sq.close with
      | none => left; simp [compareEtf, hsc]
      | some sp =>
        cases hlc : lq.close with
        | none => left; simp [compareEtf, hsc, hlc]
        | some lp =>
          by_cases hz : sp = 0 ∨ lp = 0
          · left; simp [compareEtf, hsc, hlc, hz]
          · right
            rw [not_or] at hz
            exact ⟨sq, lq, sp, lp, rfl, rfl, hsc, hlc, hz.1, hz.2,
              compareEtf_success_of name symbol currency sq lq sp lp hsc hlc hz.1 hz.2⟩

/-! ### Helper lemmas about the result loops -/

lemma processIndices_rows_length (fs fl : String → Option Quote) :
    ∀ l : List (String × String), (processIndices fs fl l).1.length = l.length
  | [] => rfl
  | (name, symbol) :: rest => by
    simp [processIndices, processIndices_rows_length fs fl rest]

lemma processEtfs_rows_length (fs fl : String → Option Quote) :
    ∀ l : List (String × String × String),
      (processEtfs fs fl l).1.length = l.length
  | [] => rfl
  | (name, symbol, currency) :: rest => by
    simp [processEtfs, processEtfs_rows_length fs fl rest]

lemma processIndices_rows_getElem (fs fl : String → Option Quote) :
    ∀ (l : List (String × String)) (i : ℕ) (name symbol : String),
      l[i]? = some (name, symbol) →
      (processIndices fs fl l).1[i]? =
        some (compareIndex name symbol (fs symbol) (fl symbol))
  | [], i, name, symbol => by simp
  | (n, s) :: rest, 0, name, symbol => by
    intro h
    simp only [List.getElem?_cons_zero, Option.some.injEq] at h
    cases h
    simp [processIndices]
  | (n, s) :: rest, i + 1, name, symbol => by
    intro h
    simp only [List.getElem?_cons_succ] at h
    simpa [processIndices] using processIndices_rows_getElem fs fl rest i name symbol h

lemma processEtfs_rows_getElem (fs fl : String → Option Quote) :
    ∀ (l : List (String × String × String)) (i : ℕ) (name symbol currency : String),
      l[i]? = some (name, symbol, currency) →
      (processEtfs fs fl l).1[i]? =
        some (compareEtf name symbol currency (fs symbol) (fl symbol))
  | [], i, name, symbol, currency => by simp
  | (n, s, c) :: rest, 0, name, symbol, currency => by
    intro h
    simp only [List.getElem?_cons_zero, Option.some.injEq] at h
    cases h
    simp [processEtfs]
  | (n, s, c) :: rest, i + 1, name, symbol, currency => by
    intro h
    simp only [List.getElem?_cons_succ] at h
    simpa [processEtfs] using
      processEtfs_rows_getElem fs fl rest i name symbol currency h

/-! ### Theorems for the claims -/

/-- C2: `get_closest_trading_day_data` queries at most 5 distinct calendar
days — the target day and the days immediately before it, stepping backward
one at a time; it returns a quote only if that quote's reported day equals
the day queried on that attempt and its closing price is non-null; if no
attempt finds such a quote it returns `none`; and a transport error on any
attempt short-circuits the remaining attempts and yields `none`. -/
theorem fetchOnOrBefore_window_spec (oracle : ℤ → HttpResult) (target : ℤ) :
    (∃ k : ℕ, k ≤ 5 ∧ closestTrace oracle target (List.range 5)
        = (List.range k).map (fun i : ℕ => target - (i : ℤ))) ∧
    (closestTrace oracle target (List.range 5)).length ≤ 5 ∧
    (closestTrace oracle target (List.range 5)).Nodup ∧
    (∀ d ∈ closestTrace oracle target (List.range 5),
      ∃ i : ℕ, i < 5 ∧ d = target - (i : ℤ)) ∧
    (∀ q, get_closest_trading_day_data oracle target = some q →
      ∃ i : ℕ, i < 5 ∧
        attempt (oracle (target - (i : ℤ))) (target - (i : ℤ)) = .found q ∧
        q.dateDay = some (target - (i : ℤ)) ∧ q.close ≠ none) ∧
    ((∀ i : ℕ, i < 5 → ∀ q,
        attempt (oracle (target - (i : ℤ))) (target - (i : ℤ)) ≠ .found q) →
      get_closest_trading_day_data oracle target = none) ∧
    (∀ j : ℕ, j < 5 → (∀ i : ℕ, i < j →
        attempt (oracle (target - (i : ℤ))) (target - (i : ℤ)) = .notFound) →
      attemptRaw (oracle (target - (j : ℤ))) (target - (j : ℤ)) = .error .requestError →
      get_closest_trading_day_data oracle target = none) := by
  obtain ⟨k, hk5, htr⟩ := closestTrace_take oracle target (List.range 5)
  simp only [List.length_range] at hk5
  have htr' : closestTrace oracle target (List.range 5)
      = (List.range k).map (fun i : ℕ => target - (i : ℤ)) := by
    rw [htr, List.take_range, Nat.min_eq_left hk5]
  refine ⟨⟨k, hk5, htr'⟩, ?_, ?_, ?_, ?_, ?_, ?_⟩
  · rw [htr']; simpa using hk5
  · rw [htr']
    exact List.Nodup.map (sub_natCast_injective target) (List.nodup_range k)
  · rw [htr']
    intro d hd
    obtain ⟨i, hi, hdi⟩ := List.mem_map.mp hd
    exact ⟨i, lt_of_lt_of_le (List.mem_range.mp hi) hk5, hdi.symm⟩
  · intro q hq
    obtain ⟨i, hi, hatt⟩ := closestGo_some oracle target (List.range 5) q hq
    obtain ⟨hdate, hclose⟩ := attempt_found _ _ _ hatt
    exact ⟨i, List.mem_range.mp hi, hatt, hdate, hclose⟩
  · intro h
    exact closestGo_none oracle target (List.range 5)
      (fun i hi => h i (List.mem_range.mp hi))
  · intro j hj hnf hraw
    have hj' : j < (List.range 5).length := by simpa using hj
    refine closestGo_fail oracle target (List.range 5) j hj' ?_ ?_
    · intro i hi
      rw [List.get_range]
      exact hnf i hi
    · rw [List.get_range]
      unfold attempt
      rw [hraw]

/-- Witness for C2: a concrete oracle with no data on the target day and a
matching quote one day earlier, and a concrete oracle that always raises. -/
theorem fetchOnOrBefore_window_spec_witness :
    (∃ i : ℕ, i < 5 ∧
      attempt ((fun d : ℤ => if d = -1
          then HttpResult.resp 200 (some [some ⟨some (-1), some 5⟩])
          else HttpResult.resp 200 (some [])) ((0 : ℤ) - (i : ℤ)))
        ((0 : ℤ) - (i : ℤ)) = .found ⟨some (-1), some 5⟩ ∧
      (Quote.mk (some (-1)) (some 5)).dateDay = some ((0 : ℤ) - (i : ℤ)) ∧
      (Quote.mk (some (-1)) (some 5)).close ≠ none) ∧
    get_closest_trading_day_data (fun _ => HttpResult.exn) 0 = none := by
  constructor
  · exact (fetchOnOrBefore_window_spec
      (fun d : ℤ => if d = -1
        then HttpResult.resp 200 (some [some ⟨some (-1), some 5⟩])
        else HttpResult.resp 200 (some [])) 0).2.2.2.2.1
      ⟨some (-1), some 5⟩ (by decide)
  · exact (fetchOnOrBefore_window_spec (fun _ => HttpResult.exn) 0).2.2.2.2.2.2
      0 (by decide) (fun i hi => absurd hi (Nat.not_lt_zero i)) rfl

/-- C4: when the `eod/latest` endpoint answers 404, exactly one fallback call
to the historical `eod` endpoint with `limit = 1` is issued; the quote
returned, if any, is the first record of the fallback response and has a
non-null closing price; an empty fallback data array yields `none`. -/
theorem fetchLatest_fallback_spec (b : Option (List (Option Quote)))
    (eodResp : HttpResult) :
    latestCalls (.resp 404 b) = [⟨"eod/latest", 1⟩, ⟨"eod", 1⟩] ∧
    (∀ q, get_latest_trading_day_data (.resp 404 b) eodResp = some q →
      ∃ s : ℕ, ∃ rest : List (Option Quote),
        eodResp = .resp s (some (some q :: rest)) ∧ s < 400 ∧ q.close ≠ none) ∧
    (∀ s : ℕ, eodResp = .resp s (some []) →
      get_latest_trading_day_data (.resp 404 b) eodResp = none) := by
  refine ⟨by simp [latestCalls], ?_, ?_⟩
  · intro q hq
    cases eodResp with
    | exn => simp [get_latest_trading_day_data, latestRaw] at hq
    | resp s b' =>
      by_cases hs : 400 ≤ s
      · simp [get_latest_trading_day_data, latestRaw, hs] at hq
      · rcases b' with _ | (_ | ⟨_ | q', rest⟩)
        · simp [get_latest_trading_day_data, latestRaw, hs] at hq
        · simp [get_latest_trading_day_data, latestRaw, hs] at hq
        · simp [get_latest_trading_day_data, latestRaw, hs] at hq
        · cases hc : q'.close with
          | none => simp [get_latest_trading_day_data, latestRaw, hs, hc] at hq
          | some c =>
            simp [get_latest_trading_day_data, latestRaw, hs, hc] at hq
            subst hq
            exact ⟨s, rest, rfl, Nat.lt_of_not_le hs, by simp [hc]⟩
  · intro s hs
    subst hs
    by_cases h4 : 400 ≤ s <;> simp [get_latest_trading_day_data, latestRaw, h4]

/-- Witness for C4: concrete 404 response, one successful fallback and one
empty fallback. -/
theorem fetchLatest_fallback_spec_witness :
    latestCalls (.resp 404 (some [])) = [⟨"eod/latest", 1⟩, ⟨"eod", 1⟩] ∧
    (∃ s : ℕ, ∃ rest : List (Option Quote),
      (HttpResult.resp 200 (some [some ⟨some 7, some 42⟩]))
        = .resp s (some (some ⟨some 7, some 42⟩ :: rest)) ∧ s < 400 ∧
      (Quote.mk (some 7) (some 42)).close ≠ none) ∧
    get_latest_trading_day_data (.resp 404 (some [])) (.resp 200 (some [])) = none := by
  refine ⟨(fetchLatest_fallback_spec (some []) (.resp 200 (some []))).1, ?_, ?_⟩
  · exact (fetchLatest_fallback_spec (some [])
      (.resp 200 (some [some ⟨some 7, some 42⟩]))).2.1 ⟨some 7, some 42⟩ rfl
  · exact (fetchLatest_fallback_spec (some []) (.resp 200 (some []))).2.2 200 rfl

/-- C1 counterexample: a start quote whose closing price is 0 is non-null,
and the latest close 110 is non-null, yet the comparison produces the
failure row — refuting "whenever both closing prices are non-null the result
is successful". -/
theorem comparison_nonnull_counterexample :
    (Quote.mk (some 0) (some 0)).close ≠ none ∧
    (Quote.mk (some 0) (some 110)).close ≠ none ∧
    compareIndex "AEX" "AEX.INDX" (some ⟨some 0, some 0⟩) (some ⟨some 0, some 110⟩)
      = .failure "AEX" "AEX.INDX" := by
  exact ⟨by simp, by simp, rfl⟩

/-- C1 (amended): a ComparisonResult is a failure marker if and only if at
least one of the two underlying quotes is absent or has a null or zero
closing price; whenever both closing prices are non-null and nonzero the
result is successful; failure rows render as the literal `"Fout"` and success
rows as a formatted numeric change, never as the error value. -/
theorem comparison_failure_iff (name symbol currency : String)
    (sd ld : Option Quote) :
    ((compareIndex name symbol sd ld).isFailure = true ↔
      ¬ ∃ sq lq sp lp, sd = some sq ∧ ld = some lq ∧
        sq.close = some sp ∧ lq.close = some lp ∧ sp ≠ 0 ∧ lp ≠ 0) ∧
    ((compareEtf name symbol currency sd ld).isFailure = true ↔
      ¬ ∃ sq lq sp lp, sd = some sq ∧ ld = some lq ∧
        sq.close = some sp ∧ lq.close = some lp ∧ sp ≠ 0 ∧ lp ≠ 0) ∧
    ((compareIndex name symbol sd ld).isFailure = true →
      renderIndexCell (compareIndex name symbol sd ld) = "Fout") ∧
    ((compareIndex name symbol sd ld).isFailure = false →
      ∃ ch, renderIndexCell (compareIndex name symbol sd ld)
        = formatFixed2 ch ++ "%") ∧
    ((compareEtf name symbol currency sd ld).isFailure = true →
      renderEtfCell (compareEtf name symbol currency sd ld) = "Fout") ∧
    ((compareEtf name symbol currency sd ld).isFailure = false →
      ∃ ch, renderEtfCell (compareEtf name symbol currency sd ld)
        = formatSignedFixed2 ch ++ " " ++ currency) := by
  refine ⟨?_, ?_, ?_, ?_, ?_, ?_⟩
  · constructor
    · intro hf hex
      obtain ⟨sq, lq, sp, lp, h1, h2, h3, h4, h5, h6⟩ := hex
      subst h1; subst h2
      rw [compareIndex_success_of name symbol sq lq sp lp h3 h4 h5 h6] at hf
      simp [IndexResult.isFailure] at hf
    · intro hne
      rcases compareIndex_cases name symbol sd ld with hfail | ⟨sq, lq, sp, lp,
        h1, h2, h3, h4, h5, h6, _⟩
      · rw [hfail]; rfl
      · exact absurd ⟨sq, lq, sp, lp, h1, h2, h3, h4, h5, h6⟩ hne
  · constructor
    · intro hf hex
      obtain ⟨sq, lq, sp, lp, h1, h2, h3, h4, h5, h6⟩ := hex
      subst h1; subst h2
      rw [compareEtf_success_of name symbol currency sq lq sp lp h3 h4 h5 h6] at hf
      simp [EtfResult.isFailure] at hf
    · intro hne
      rcases compareEtf_cases name symbol currency sd ld with hfail | ⟨sq, lq,
        sp, lp, h1, h2, h3, h4, h5, h6, _⟩
      · rw [hfail]; rfl
      · exact absurd ⟨sq, lq, sp, lp, h1, h2, h3, h4, h5, h6⟩ hne
  · intro hf
    rcases compareIndex_cases name symbol sd ld with hfail | ⟨_, _, _, _, _, _,
      _, _, _, _, hsucc⟩
    · rw [hfail]; rfl
    · rw [hsucc] at hf ⊢; simp [IndexResult.isFailure] at hf
  · intro hs
    rcases compareIndex_cases name symbol sd ld with hfail | ⟨_, _, sp, lp, _,
      _, _, _, _, _, hsucc⟩
    · rw [hfail] at hs; simp [IndexResult.isFailure] at hs
    · rw [hsucc]; exact ⟨percentage_change sp lp, rfl⟩
  · intro hf
    rcases compareEtf_cases name symbol currency sd ld with hfail | ⟨_, _, _,
      _, _, _, _, _, _, _, hsucc⟩
    · rw [hfail]; rfl
    · rw [hsucc] at hf ⊢; simp [EtfResult.isFailure] at hf
  · intro hs
    rcases compareEtf_cases name symbol currency sd ld with hfail | ⟨_, _, sp,
      lp, _, _, _, _, _, _, hsucc⟩
    · rw [hfail] at hs; simp [EtfResult.isFailure] at hs
    · rw [hsucc]; exact ⟨absolute_change sp lp, rfl⟩

/-- Witness for C1 (amended): an absent start quote is a failure rendered as
`"Fout"`; two non-null nonzero closes are a success rendered as a formatted
change. -/
theorem comparison_failure_iff_witness :
    renderIndexCell (compareIndex "AEX" "AEX.INDX" none none) = "Fout" ∧
    (∃ ch, renderIndexCell (compareIndex "AEX" "AEX.INDX"
      (some ⟨some 0, some 100⟩) (some ⟨some 0, some 110⟩))
        = formatFixed2 ch ++ "%") := by
  constructor
  · exact (comparison_failure_iff "AEX" "AEX.INDX" "EUR" none none).2.2.1 rfl
  · exact (comparison_failure_iff "AEX" "AEX.INDX" "EUR"
      (some ⟨some 0, some 100⟩) (some ⟨some 0, some 110⟩)).2.2.2.1 rfl

/-- C3 counterexample: for start price 100 and latest price 110 the displayed
string is `"10.00%"` — the format `f"{percentage_change:.2f}%"` (metric
line 161 and table line 225) carries no explicit plus sign — refuting
"exactly \x22+10.00%\x22". -/
theorem indexDelta_sign_counterexample :
    indexDeltaString 100 110 = "10.00%" ∧ indexDeltaString 100 110 ≠ "+10.00%" := by
  have hpc : percentage_change 100 110 = 10 := by norm_num [percentage_change]
  have hr : round ((100 : ℚ) * 10) = 1000 := by norm_num
  have hf : formatFixed2 10 = "10.00" := by
    simp only [formatFixed2, hr]
    norm_num [twoDigits]
    decide
  have h1 : indexDeltaString 100 110 = "10.00%" := by
    simp only [indexDeltaString, hpc, hf]
    decide
  exact ⟨h1, by rw [h1]; decide⟩

/-- C3 (amended): for an index with start price 100 and latest price 110 the
displayed percentage change string is exactly `"10.00%"`: the change is
computed as (latest − start) / start × 100 and displayed with 2 decimal
places and no explicit plus sign (only negative changes carry a minus sign) —
both in the metric delta and in the detail table cell. -/
theorem indexDelta_format :
    percentage_change 100 110 = 10 ∧
    indexDeltaString 100 110 = "10.00%" ∧
    renderIndexCell (compareIndex "S&P 500" "GSPC.INDX"
      (some ⟨some 0, some 100⟩) (some ⟨some 0, some 110⟩)) = "10.00%" ∧
    formatFixed2 (-(3 : ℚ) / 2) = "-1.50" := by
  have hpc : percentage_change 100 110 = 10 := by norm_num [percentage_change]
  have hr : round ((100 : ℚ) * 10) = 1000 := by norm_num
  have hf : formatFixed2 10 = "10.00" := by
    simp only [formatFixed2, hr]
    norm_num [twoDigits]
    decide
  have hneg : formatFixed2 (-(3 : ℚ) / 2) = "-1.50" := by
    have hr2 : round ((100 : ℚ) * (-(3 : ℚ) / 2)) = -150 := by norm_num [round_eq]
    simp only [formatFixed2, hr2]
    norm_num [twoDigits]
    decide
  refine ⟨hpc, by simp only [indexDeltaString, hpc, hf]; decide, ?_, hneg⟩
  rw [compareIndex_success_of "S&P 500" "GSPC.INDX" ⟨some 0, some 100⟩
    ⟨some 0, some 110⟩ 100 110 rfl rfl (by norm_num) (by norm_num)]
  simp only [renderIndexCell, hpc, hf]
  decide

/-- C6: for an ETF with start price 50.00, latest price 48.50 and currency
EUR, the change is latest − start = −1.50 and the displayed string is exactly
`"-1.50 EUR"` (sign, 2 decimals, currency code) — both in the metric delta
and in the detail table cell. -/
theorem etfDelta_format :
    absolute_change 50 (97 / 2) = -(3 : ℚ) / 2 ∧
    etfDeltaString 50 (97 / 2) "EUR" = "-1.50 EUR" ∧
    renderEtfCell (compareEtf "iShares AEX UCITS ETF" "IAEX.AS" "EUR"
      (some ⟨some 0, some 50⟩) (some ⟨some 0, some (97 / 2)⟩)) = "-1.50 EUR" := by
  have hac : absolute_change 50 (97 / 2) = -(3 : ℚ) / 2 := by
    norm_num [absolute_change]
  have hr : round ((100 : ℚ) * (-(3 : ℚ) / 2)) = -150 := by norm_num [round_eq]
  have hf : formatSignedFixed2 (-(3 : ℚ) / 2) = "-1.50" := by
    simp only [formatSignedFixed2, hr]
    norm_num [twoDigits]
    decide
  refine ⟨hac, by simp only [etfDeltaString, hac, hf]; decide, ?_⟩
  rw [compareEtf_success_of "iShares AEX UCITS ETF" "IAEX.AS" "EUR"
    ⟨some 0, some 50⟩ ⟨some 0, some (97 / 2)⟩ 50 (97 / 2) rfl rfl
    (by norm_num) (by norm_num)]
  simp only [renderEtfCell, hac, hf]
  decide

/-- C5: for every input list of instruments, the output table has exactly one
row per instrument, in input iteration order, and row `i` is exactly the
comparison (success or failure) of instrument `i` — regardless of how many
fetches failed. -/
theorem table_rows_per_instrument (fs fl : String → Option Quote)
    (idxList : List (String × String))
    (etfList : List (String × String × String)) :
    (processIndices fs fl idxList).1.length = idxList.length ∧
    (processEtfs fs fl etfList).1.length = etfList.length ∧
    (∀ (i : ℕ) (name symbol : String), idxList[i]? = some (name, symbol) →
      (processIndices fs fl idxList).1[i]? =
        some (compareIndex name symbol (fs symbol) (fl symbol))) ∧
    (∀ (i : ℕ) (name symbol currency : String),
      etfList[i]? = some (name, symbol, currency) →
      (processEtfs fs fl etfList).1[i]? =
        some (compareEtf name symbol currency (fs symbol) (fl symbol))) :=
  ⟨processIndices_rows_length fs fl idxList,
   processEtfs_rows_length fs fl etfList,
   fun i name symbol h => processIndices_rows_getElem fs fl idxList i name symbol h,
   fun i name symbol currency h =>
     processEtfs_rows_getElem fs fl etfList i name symbol currency h⟩

/-- Witness for C5: a one-index list and a one-ETF list with all fetches
failing still yield one row each, and the rows are the failure comparisons. -/
theorem table_rows_per_instrument_witness :
    (processIndices (fun _ => none) (fun _ => none) [("AEX", "AEX.INDX")]).1.length
      = [("AEX", "AEX.INDX")].length ∧
    (processIndices (fun _ => none) (fun _ => none) [("AEX", "AEX.INDX")]).1[0]?
      = some (compareIndex "AEX" "AEX.INDX" none none) ∧
    (processEtfs (fun _ => none) (fun _ => none)
      [("iShares AEX UCITS ETF", "IAEX.AS", "EUR")]).1[0]?
      = some (compareEtf "iShares AEX UCITS ETF" "IAEX.AS" "EUR" none none) := by
  refine ⟨(table_rows_per_instrument (fun _ => none) (fun _ => none)
    [("AEX", "AEX.INDX")] []).1, ?_, ?_⟩
  · exact (table_rows_per_instrument (fun _ => none) (fun _ => none)
      [("AEX", "AEX.INDX")] []).2.2.1 0 "AEX" "AEX.INDX" rfl
  · exact (table_rows_per_instrument (fun _ => none) (fun _ => none) []
      [("iShares AEX UCITS ETF", "IAEX.AS", "EUR")]).2.2.2 0
      "iShares AEX UCITS ETF" "IAEX.AS" "EUR" rfl

/-- C7: every transport or processing error inside either fetch is caught
locally and resolves that fetch to `none` (never a propagated exception), and
the table row of one instrument depends only on that instrument's own fetch
results — an error on one instrument cannot change any other row. -/
theorem fetch_errors_recovered (r : HttpResult) (d : ℤ) (e : PyErr)
    (lr er : HttpResult) (fs fl fs' fl' : String → Option Quote)
    (idxList : List (String × String))
    (etfList : List (String × String × String)) (i : ℕ)
    (name symbol currency : String) :
    (attemptRaw r d = .error e → attempt r d = .fail) ∧
    (latestRaw lr er = .error e → get_latest_trading_day_data lr er = none) ∧
    (idxList[i]? = some (name, symbol) → fs' symbol = fs symbol →
      fl' symbol = fl symbol →
      (processIndices fs' fl' idxList).1[i]? = (processIndices fs fl idxList).1[i]?) ∧
    (etfList[i]? = some (name, symbol, currency) → fs' symbol = fs symbol →
      fl' symbol = fl symbol →
      (processEtfs fs' fl' etfList).1[i]? = (processEtfs fs fl etfList).1[i]?) := by
  refine ⟨?_, ?_, ?_, ?_⟩
  · intro h; unfold attempt; rw [h]
  · intro h; unfold get_latest_trading_day_data; rw [h]
  · intro h hfs hfl
    rw [processIndices_rows_getElem fs' fl' idxList i name symbol h,
      processIndices_rows_getElem fs fl idxList i name symbol h, hfs, hfl]
  · intro h hfs hfl
    rw [processEtfs_rows_getElem fs' fl' etfList i name symbol currency h,
      processEtfs_rows_getElem fs fl etfList i name symbol currency h, hfs, hfl]

/-- Witness for C7: a raised request exception makes the walk-back attempt
fail and the latest fetch resolve to `none`; changing the fetch results of a
second instrument leaves the first instrument's row unchanged. -/
theorem fetch_errors_recovered_witness :
    attempt HttpResult.exn 0 = .fail ∧
    get_latest_trading_day_data HttpResult.exn HttpResult.exn = none ∧
    (processIndices (fun s => if s = "GSPC.INDX" then none else some ⟨some 0, some 1⟩)
        (fun _ => some ⟨some 0, some 1⟩) [("AEX", "AEX.INDX")]).1[0]?
      = (processIndices (fun _ => some ⟨some 0, some 1⟩)
        (fun _ => some ⟨some 0, some 1⟩) [("AEX", "AEX.INDX")]).1[0]? := by
  refine ⟨?_, ?_, ?_⟩
  · exact (fetch_errors_recovered HttpResult.exn 0 .requestError HttpResult.exn
      HttpResult.exn (fun _ => none) (fun _ => none) (fun _ => none)
      (fun _ => none) [] [] 0 "" "" "").1 rfl
  · exact (fetch_errors_recovered HttpResult.exn 0 .requestError HttpResult.exn
      HttpResult.exn (fun _ => none) (fun _ => none) (fun _ => none)
      (fun _ => none) [] [] 0 "" "" "").2.1 rfl
  · exact (fetch_errors_recovered HttpResult.exn 0 .requestError HttpResult.exn
      HttpResult.exn (fun _ => some ⟨some 0, some 1⟩)
      (fun _ => some ⟨some 0, some 1⟩)
      (fun s => if s = "GSPC.INDX" then none else some ⟨some 0, some 1⟩)
      (fun _ => some ⟨some 0, some 1⟩) [("AEX", "AEX.INDX")] [] 0
      "AEX" "AEX.INDX" "").2.2.1 rfl rfl rfl

/-- C8: when the API key is missing (or empty — Python truthiness of
`os.getenv`), the script halts at the key check and the list of fetch calls
issued is empty: no fetch is attempted. -/
theorem missing_key_halts (apiKey : Option String)
    (fs fl : String → Option Quote) (idxList : List (String × String))
    (etfList : List (String × String × String))
    (h : pyTruthyKey apiKey = false) :
    runApp apiKey fs fl idxList etfList = (.halted, []) := by
  unfold runApp
  rw [h]
  simp

/-- Witness for C8: with no key configured, nothing is fetched. -/
theorem missing_key_halts_witness :
    runApp none (fun _ => none) (fun _ => none) [("AEX", "AEX.INDX")]
      [("iShares AEX UCITS ETF", "IAEX.AS", "EUR")] = (.halted, []) :=
  missing_key_halts none (fun _ => none) (fun _ => none) [("AEX", "AEX.INDX")]
    [("iShares AEX UCITS ETF", "IAEX.AS", "EUR")] rfl

/-- C10: the success guard tests truthiness of both closing prices, not mere
non-nullness: on every success row the start price is nonzero, the stored
change is the division formula with that nonzero start, and a quote whose
closing price equals 0 is routed to the failure branch on either side, for
indices and for ETFs. -/
theorem success_guard_nonzero_start (name symbol currency : String)
    (sd ld : Option Quote) (q : Quote) :
    (∀ sp : ℚ, (compareIndex name symbol sd ld).startPrice = some sp → sp ≠ 0) ∧
    (∀ (n s : String) (sD : Option ℤ) (sp : ℚ) (lD : Option ℤ) (lp ch : ℚ),
      compareIndex name symbol sd ld = .success n s sD sp lD lp ch →
      sp ≠ 0 ∧ ch = ((lp - sp) / sp) * 100) ∧
    (q.close = some 0 →
      compareIndex name symbol (some q) ld = .failure name symbol) ∧
    (q.close = some 0 →
      compareIndex name symbol sd (some q) = .failure name symbol) ∧
    (q.close = some 0 →
      compareEtf name symbol currency (some q) ld = .failure name symbol) ∧
    (q.close = some 0 →
      compareEtf name symbol currency sd (some q) = .failure name symbol) := by
  refine ⟨?_, ?_, ?_, ?_, ?_, ?_⟩
  · intro sp hsp
    rcases compareIndex_cases name symbol sd ld with hfail | ⟨_, _, sp', _, _,
      _, _, _, hsp', _, hsucc⟩
    · rw [hfail] at hsp; simp [IndexResult.startPrice] at hsp
    · rw [hsucc] at hsp
      simp only [IndexResult.startPrice, Option.some.injEq] at hsp
      subst hsp
      exact hsp'
  · intro n s sD sp lD lp ch hsucc'
    rcases compareIndex_cases name symbol sd ld with hfail | ⟨_, _, sp', lp',
      _, _, _, _, hsp', hlp', hsucc⟩
    · rw [hfail] at hsucc'; exact absurd hsucc' (by simp)
    · rw [hsucc] at hsucc'
      injection hsucc' with e1 e2 e3 e4 e5 e6 e7
      subst e4; subst e6; subst e7
      exact ⟨hsp', rfl⟩
  · intro h
    cases ld with
    | none => simp [compareIndex]
    | some lq => cases hlc : lq.close <;> simp [compareIndex, h, hlc]
  · intro h
    cases sd with
    | none => simp [compareIndex]
    | some sq => cases hsc : sq.close <;> simp [compareIndex, h, hsc]
  · intro h
    cases ld with
    | none => simp [compareEtf]
    | some lq => cases hlc : lq.close <;> simp [compareEtf, h, hlc]
  · intro h
    cases sd with
    | none => simp [compareEtf]
    | some sq => cases hsc : sq.close <;> simp [compareEtf, h, hsc]

/-- Witness for C10: on a concrete success row the start price 100 is
nonzero, and a concrete zero-close start quote lands in the failure branch. -/
theorem success_guard_nonzero_start_witness :
    (100 : ℚ) ≠ 0 ∧
    compareIndex "DAX" "GDAXI.INDX" (some ⟨some 0, some 0⟩)
      (some ⟨some 0, some 110⟩) = .failure "DAX" "GDAXI.INDX" := by
  constructor
  · exact (success_guard_nonzero_start "DAX" "GDAXI.INDX" "EUR"
      (some ⟨some 0, some 100⟩) (some ⟨some 0, some 110⟩)
      ⟨some 0, some 0⟩).1 100 rfl
  · exact (success_guard_nonzero_start "DAX" "GDAXI.INDX" "EUR"
      (some ⟨some 0, some 0⟩) (some ⟨some 0, some 110⟩)
      ⟨some 0, some 0⟩).2.2.1 rfl

/-- C9 (cache modelled from the spec: the `@st.cache_data(ttl=3600)`
framework cache is not part of this repository's source): a request whose key
was stored within the TTL window returns the cached value and performs no
upstream fetch; after an explicit clear, the next request performs exactly
one new fetch. -/
theorem cache_idempotent_spec {K V : Type} [DecidableEq K] (fetch : K → V)
    (c : Cache K V) (k : K) (t₀ t₁ : ℕ)
    (hmiss : c.lookup 3600 t₀ k = none) (hwin : t₁ < t₀ + 3600) :
    (cachedFetch fetch c 3600 t₀ k).2.2 = 1 ∧
    (cachedFetch fetch (cachedFetch fetch c 3600 t₀ k).2.1 3600 t₁ k).1
      = (cachedFetch fetch c 3600 t₀ k).1 ∧
    (cachedFetch fetch (cachedFetch fetch c 3600 t₀ k).2.1 3600 t₁ k).2.2 = 0 ∧
    (cachedFetch fetch
      (Cache.clear (cachedFetch fetch c 3600 t₀ k).2.1) 3600 t₁ k).2.2 = 1 := by
  have h1 : cachedFetch fetch c 3600 t₀ k
      = (fetch k, ⟨(k, fetch k, t₀) :: c.entries⟩, 1) := by
    unfold cachedFetch
    rw [hmiss]
  have hfind : ((k, fetch k, t₀) :: c.entries).find?
      (fun e => decide (e.1 = k) && decide (t₁ < e.2.2 + 3600))
      = some (k, fetch k, t₀) :=
    List.find?_cons_of_pos _ (by simp [hwin])
  have hhit : (Cache.mk ((k, fetch k, t₀) :: c.entries) : Cache K V).lookup
      3600 t₁ k = some (fetch k) := by
    unfold Cache.lookup
    rw [hfind]
  have h2 : cachedFetch fetch
      (⟨(k, fetch k, t₀) :: c.entries⟩ : Cache K V) 3600 t₁ k
      = (fetch k, ⟨(k, fetch k, t₀) :: c.entries⟩, 0) := by
    unfold cachedFetch
    rw [hhit]
  have hclr : (Cache.clear (⟨(k, fetch k, t₀) :: c.entries⟩ : Cache K V)).lookup
      3600 t₁ k = none := rfl
  have h3 : cachedFetch fetch
      (Cache.clear (⟨(k, fetch k, t₀) :: c.entries⟩ : Cache K V)) 3600 t₁ k
      = (fetch k, ⟨[(k, fetch k, t₁)]⟩, 1) := by
    unfold cachedFetch
    rw [hclr]
    rfl
  refine ⟨by rw [h1], by rw [h1, h2], by rw [h1, h2], by rw [h1, h3]⟩

/-- Witness for C9: a concrete String-keyed cache of fetch results — one
fetch on a cold cache, zero on a warm repeat one second later, one again
after a clear. -/
theorem cache_idempotent_spec_witness :
    (cachedFetch (fun _ : String => (none : Option Quote)) ⟨[]⟩ 3600 0
      "AEX.INDX").2.2 = 1 ∧
    (cachedFetch (fun _ : String => (none : Option Quote))
      (cachedFetch (fun _ : String => (none : Option Quote)) ⟨[]⟩ 3600 0
        "AEX.INDX").2.1 3600 1 "AEX.INDX").1
      = (cachedFetch (fun _ : String => (none : Option Quote)) ⟨[]⟩ 3600 0
        "AEX.INDX").1 ∧
    (cachedFetch (fun _ : String => (none : Option Quote))
      (cachedFetch (fun _ : String => (none : Option Quote)) ⟨[]⟩ 3600 0
        "AEX.INDX").2.1 3600 1 "AEX.INDX").2.2 = 0 ∧
    (cachedFetch (fun _ : String => (none : Option Quote))
      (Cache.clear (cachedFetch (fun _ : String => (none : Option Quote)) ⟨[]⟩
        3600 0 "AEX.INDX").2.1) 3600 1 "AEX.INDX").2.2 = 1 :=
  cache_idempotent_spec (fun _ => none) ⟨[]⟩ "AEX.INDX" 0 1 rfl (by norm_num)
